import Mathlib

/-!
# Verification of the Binance trading proxy (`src/server.py`)

A shallow embedding of the proxy's core: the request signer (`_sign`), the
exchange client (`_get`, `_post`), and the order validator / risk gate
(`create_order`).  Python floats are modelled as exact rationals (`ℚ`);
Python dicts as association lists in insertion order; the single outbound
HTTP call of each client operation as an explicit transport function from
the request's query/body string to a response or a network error.
-/

namespace BinanceProxy

/-! ## Bytes and 32-bit words -/

/-- Truncate to a 32-bit word, as all SHA-256 arithmetic is mod 2^32. -/
def w32 (n : Nat) : Nat := n % 4294967296

/-- Right rotation of a 32-bit word by `k` bits. -/
def rotr (k n : Nat) : Nat := w32 ((n >>> k) ||| (n <<< (32 - k)))

/-- Bitwise complement within 32 bits. -/
def wnot (n : Nat) : Nat := 4294967295 - w32 n

/-! ## SHA-256 (embedding of Python's `hashlib.sha256`) -/

/-- The 64 SHA-256 round constants (decimal). -/
def shaK : List Nat :=
  [1116352408, 1899447441, 3049323471, 3921009573, 961987163, 1508970993,
   2453635748, 2870763221, 3624381080, 310598401, 607225278, 1426881987,
   1925078388, 2162078206, 2614888103, 3248222580, 3835390401, 4022224774,
   264347078, 604807628, 770255983, 1249150122, 1555081692, 1996064986,
   2554220882, 2821834349, 2952996808, 3210313671, 3336571891, 3584528711,
   113926993, 338241895, 666307205, 773529912, 1294757372, 1396182291,
   1695183700, 1986661051, 2177026350, 2456956037, 2730485921, 2820302411,
   3259730800, 3345764771, 3516065817, 3600352804, 4094571909, 275423344,
   430227734, 506948616, 659060556, 883997877, 958139571, 1322822218,
   1537002063, 1747873779, 1955562222, 2024104815, 2227730452, 2361852424,
   2428436474, 2756734187, 3204031479, 3329325298]

/-- Initial SHA-256 hash state (decimal). -/
def shaH0 : List Nat :=
  [1779033703, 3144134277, 1013904242, 2773480762,
   1359893119, 2600822924, 528734635, 1541459225]

/-- Small sigma 0. -/
def ssig0 (x : Nat) : Nat := (rotr 7 x) ^^^ (rotr 18 x) ^^^ (x >>> 3)

/-- Small sigma 1. -/
def ssig1 (x : Nat) : Nat := (rotr 17 x) ^^^ (rotr 19 x) ^^^ (x >>> 10)

/-- Big sigma 0. -/
def bsig0 (x : Nat) : Nat := (rotr 2 x) ^^^ (rotr 13 x) ^^^ (rotr 22 x)

/-- Big sigma 1. -/
def bsig1 (x : Nat) : Nat := (rotr 6 x) ^^^ (rotr 11 x) ^^^ (rotr 25 x)

/-- Choice function. -/
def chF (e f g : Nat) : Nat := (e &&& f) ^^^ (wnot e &&& g)

/-- Majority function. -/
def majF (a b c : Nat) : Nat := (a &&& b) ^^^ (a &&& c) ^^^ (b &&& c)

/-- Big-endian 8-byte encoding of a bit length. -/
def lenBytes (n : Nat) : List Nat :=
  [n >>> 56 % 256, n >>> 48 % 256, n >>> 40 % 256, n >>> 32 % 256,
   n >>> 24 % 256, n >>> 16 % 256, n >>> 8 % 256, n % 256]

/-- SHA-256 message padding: append `0x80`, zero bytes to 56 mod 64, then the
bit length as 8 big-endian bytes. -/
def shaPad (msg : List Nat) : List Nat :=
  msg ++ (128 :: List.replicate ((64 - (msg.length + 9) % 64) % 64) 0)
      ++ lenBytes (msg.length * 8)

/-- Split a byte list into 64-byte blocks (fuel-based so the kernel can
evaluate it; the fuel bound always suffices). -/
def chunk64Aux : Nat → List Nat → List (List Nat)
  | 0, _ => []
  | fuel + 1, l => if l = [] then [] else l.take 64 :: chunk64Aux fuel (l.drop 64)

/-- Split a byte list into 64-byte blocks. -/
def chunk64 (l : List Nat) : List (List Nat) := chunk64Aux (l.length + 1) l

/-- Group bytes into big-endian 32-bit words. -/
def bytesToWords : List Nat → List Nat
  | a :: b :: c :: d :: rest =>
      (a * 16777216 + b * 65536 + c * 256 + d) :: bytesToWords rest
  | _ => []

/-- Expand 16 message words to the 64-entry message schedule. -/
def shaSchedule (ws : List Nat) : Array Nat :=
  (List.range 48).foldl
    (fun w _ =>
      let i := w.size
      w.push (w32 (ssig1 (w.getD (i - 2) 0) + w.getD (i - 7) 0 +
                   ssig0 (w.getD (i - 15) 0) + w.getD (i - 16) 0)))
    ws.toArray

/-- Working state of the compression function. -/
structure ShaState where
  a : Nat
  b : Nat
  c : Nat
  d : Nat
  e : Nat
  f : Nat
  g : Nat
  hh : Nat
deriving Repr, DecidableEq

/-- One round of the SHA-256 compression function. -/
def shaRound (s : ShaState) (kw : Nat × Nat) : ShaState :=
  let t1 := s.hh + bsig1 s.e + chF s.e s.f s.g + kw.1 + kw.2
  let t2 := bsig0 s.a + majF s.a s.b s.c
  { a := w32 (t1 + t2), b := s.a, c := s.b, d := s.c,
    e := w32 (s.d + t1), f := s.e, g := s.f, hh := s.g }

/-- Process one 64-byte block, updating the 8-word hash state. -/
def shaBlock (hs : List Nat) (block : List Nat) : List Nat :=
  let ws := shaSchedule (bytesToWords block)
  let init : ShaState :=
    { a := hs.getD 0 0, b := hs.getD 1 0, c := hs.getD 2 0, d := hs.getD 3 0,
      e := hs.getD 4 0, f := hs.getD 5 0, g := hs.getD 6 0, hh := hs.getD 7 0 }
  let s := (shaK.zip ws.toList).foldl shaRound init
  [w32 (hs.getD 0 0 + s.a), w32 (hs.getD 1 0 + s.b), w32 (hs.getD 2 0 + s.c),
   w32 (hs.getD 3 0 + s.d), w32 (hs.getD 4 0 + s.e), w32 (hs.getD 5 0 + s.f),
   w32 (hs.getD 6 0 + s.g), w32 (hs.getD 7 0 + s.hh)]

/-- Big-endian bytes of a 32-bit word. -/
def wordBytes (n : Nat) : List Nat :=
  [n >>> 24 % 256, n >>> 16 % 256, n >>> 8 % 256, n % 256]

/-- SHA-256 of a byte list, as the 32-byte digest. -/
def sha256 (msg : List Nat) : List Nat :=
  ((chunk64 (shaPad msg)).foldl shaBlock shaH0).flatMap wordBytes

/-! ## HMAC-SHA256 (embedding of Python's `hmac.new(..., hashlib.sha256)`) -/

/-- HMAC-SHA256 with the standard 64-byte block size. -/
def hmacSha256 (key msg : List Nat) : List Nat :=
  let k0 := if 64 < key.length then sha256 key else key
  let k := k0 ++ List.replicate (64 - k0.length) 0
  sha256 ((k.map (· ^^^ 92)) ++ sha256 ((k.map (· ^^^ 54)) ++ msg))

/-- Lowercase hex digit for a value below 16. -/
def hexDigit (n : Nat) : Char :=
  if n < 10 then Char.ofNat (48 + n) else Char.ofNat (87 + n)

/-- Lowercase hex string of a byte list, two digits per byte
(Python's `.hexdigest()`). -/
def hexDigest (bs : List Nat) : String :=
  String.mk (bs.flatMap (fun b => [hexDigit (b / 16 % 16), hexDigit (b % 16)]))

/-- UTF-8 bytes of a string (Python's `str.encode()`). -/
def utf8Bytes (s : String) : List Nat :=
  s.toUTF8.toList.map (fun b => b.toNat)

/-! ## URL form encoding (embedding of `urllib.parse.urlencode`) -/

/-- Uppercase hex digit for a value below 16. -/
def hexDigitU (n : Nat) : Char :=
  if n < 10 then Char.ofNat (48 + n) else Char.ofNat (55 + n)

/-- Percent-encode one byte with uppercase hex, as `urllib.parse.quote` does. -/
def pctByte (b : Nat) : List Char :=
  [Char.ofNat 37, hexDigitU (b / 16 % 16), hexDigitU (b % 16)]

/-- Characters `quote_plus` leaves untouched: ASCII alphanumerics and
`_ . - ~`. -/
def isUrlSafe (c : Char) : Bool :=
  c.isAlphanum || c = Char.ofNat 95 || c = Char.ofNat 46 ||
  c = Char.ofNat 45 || c = Char.ofNat 126

/-- `urllib.parse.quote_plus` on one character: safe characters pass through,
a space becomes `+`, anything else is percent-encoded per UTF-8 byte. -/
def quotePlusChar (c : Char) : List Char :=
  if isUrlSafe c then [c]
  else if c = Char.ofNat 32 then [Char.ofNat 43]
  else (utf8Bytes (String.singleton c)).flatMap pctByte

/-- `urllib.parse.quote_plus` on a string. -/
def quotePlus (s : String) : String :=
  String.mk (s.data.flatMap quotePlusChar)

/-- `urllib.parse.urlencode(params, doseq=True)` on string-valued parameters,
in insertion order. -/
def urlencode (params : List (String × String)) : String :=
  String.intercalate "&" (params.map fun p => quotePlus p.1 ++ "=" ++ quotePlus p.2)

/-- Python `dict` update with a single key: replace in place if the key is
present, otherwise append (insertion order preserved). -/
def dictUpdate (d : List (String × String)) (k v : String) : List (String × String) :=
  if d.any (fun p => p.1 = k) then
    d.map (fun p => if p.1 = k then (k, v) else p)
  else d ++ [(k, v)]

/-! ## Python number formatting

Python floats are modelled as exact rationals; the `:.Nf` format rounds
half-to-even at the `N`-th decimal, which is what the format spec does on the
(here exactly represented) value. -/

/-- Decimal digits, most significant first, with explicit fuel so the kernel
can evaluate the recursion. -/
def natDecAux : Nat → Nat → List Char
  | 0, _ => []
  | fuel + 1, n =>
      if n < 10 then [Nat.digitChar n]
      else natDecAux fuel (n / 10) ++ [Nat.digitChar (n % 10)]

/-- Decimal digits of a natural number, most significant first. -/
def natDecDigits (n : Nat) : List Char := natDecAux (n + 1) n

/-- Exactly `d` decimal digits of `n % 10^d`, most significant first,
with leading zeros. -/
def natPadDigits : Nat → Nat → List Char
  | 0, _ => []
  | d + 1, n => natPadDigits d (n / 10) ++ [Nat.digitChar (n % 10)]

/-- Round `q * 10^d` to the nearest integer, ties to even, computed on the
numerator and denominator directly (the kernel cannot reduce `Rat`
multiplication).  `f = ⌊q * 10^d⌋` and `rem/den` is the fractional part. -/
def roundHalfEvenScaled (d : Nat) (q : ℚ) : ℤ :=
  let n10 : ℤ := q.num * (10 : ℤ) ^ d
  let den : ℤ := (q.den : ℤ)
  let f := Int.fdiv n10 den
  let rem := n10 - f * den
  if 2 * rem < den then f
  else if den < 2 * rem then f + 1
  else if f % 2 = 0 then f else f + 1

/-- Python's fixed-point format `f"{x:.df}"` for `d ≥ 1`: sign, integer part,
dot, exactly `d` fractional digits, rounding half-to-even. -/
def formatFixed (d : Nat) (q : ℚ) : String :=
  let m := (roundHalfEvenScaled d q).natAbs
  (if q < 0 then "-" else "") ++
    String.mk (natDecDigits (m / 10 ^ d)) ++ "." ++
    String.mk (natPadDigits d (m % 10 ^ d))

/-- Smallest exponent `d` (bounded by fuel) such that `q * 10^d` is an
integer, i.e. the denominator divides `10^d`. -/
def decExpAux : Nat → Nat → Nat → Option Nat
  | 0, _, _ => none
  | fuel + 1, den, d => if 10 ^ d % den = 0 then some d else decExpAux fuel den (d + 1)

/-- Python's `repr` of a float that carries an exact decimal value (the
shortest fixed-point decimal), e.g. `100.0`, `0.5`.  Values with no finite
decimal expansion fall back to a fraction rendering; they cannot arise from
the decimal-parsed configuration. -/
def pyFloatRepr (q : ℚ) : String :=
  let sign := if q < 0 then "-" else ""
  match decExpAux 400 q.den 0 with
  | none => sign ++ String.mk (natDecDigits q.num.natAbs) ++ "/" ++
      String.mk (natDecDigits q.den)
  | some 0 => sign ++ String.mk (natDecDigits q.num.natAbs) ++ ".0"
  | some (d + 1) =>
      let m := q.num.natAbs * 10 ^ (d + 1) / q.den
      sign ++ String.mk (natDecDigits (m / 10 ^ (d + 1))) ++ "." ++
        String.mk (natPadDigits (d + 1) (m % 10 ^ (d + 1)))

/-! ## Python string helpers -/

/-- `str.upper()` on ASCII strings: uppercase each character. -/
def upper (s : String) : String := String.mk (s.data.map Char.toUpper)

/-- Lexicographic strict comparison of character lists by code point,
as Python compares strings. -/
def pyCharsLt : List Char → List Char → Bool
  | [], [] => false
  | [], _ :: _ => true
  | _ :: _, [] => false
  | a :: as, b :: bs =>
      if a.toNat < b.toNat then true
      else if b.toNat < a.toNat then false
      else pyCharsLt as bs

/-- `a <= b` on Python strings. -/
def pyStrLe (a b : String) : Bool := !pyCharsLt b.data a.data

/-- Stable insertion into a sorted list of strings. -/
def pyInsert (s : String) : List String → List String
  | [] => [s]
  | t :: ts => if pyStrLe s t then s :: t :: ts else t :: pyInsert s ts

/-- Python `sorted` on strings: stable sort, lexicographic by code point. -/
def pySorted : List String → List String
  | [] => []
  | s :: ss => pyInsert s (pySorted ss)

/-- Python `str.split` with a one-character separator, on the character
list. -/
def pySplitAux (sep : Char) : List Char → List Char → List String
  | [], acc => [String.mk acc.reverse]
  | c :: rest, acc =>
      if c = sep then String.mk acc.reverse :: pySplitAux sep rest []
      else pySplitAux sep rest (c :: acc)

/-- Python `s.split(sep)` for a one-character separator. -/
def pySplit (sep : Char) (s : String) : List String := pySplitAux sep s.data []

/-- Python `repr` of a list of plain (quote-free) strings,
e.g. `['BTCUSDT', 'ETHUSDT']`. -/
def pyListRepr (l : List String) : String :=
  let sq := String.singleton (Char.ofNat 39)
  "[" ++ String.intercalate ", " (l.map (fun s => sq ++ s ++ sq)) ++ "]"

/-! ## Configuration and data model -/

/-- Environment-derived configuration.  `allowedSymbols` holds the elements of
the `ALLOWED_SYMBOLS` set (duplicates already removed by `set(...)`);
`maxQuoteTradeUsdt` is `MAX_QUOTE_TRADE_USDT`. -/
structure Config where
  binanceKey : String
  binanceSecret : String
  allowedSymbols : List String
  maxQuoteTradeUsdt : ℚ

/-- `ALLOWED_SYMBOLS = set(env.split(","))`. -/
def parseAllowedSymbols (s : String) : List String :=
  (pySplit (Char.ofNat 44) s).eraseDups

/-- The configuration under the default environment values. -/
def defaultConfig : Config :=
  { binanceKey := "k", binanceSecret := "s",
    allowedSymbols := parseAllowedSymbols "BTCUSDT,ETHUSDT",
    maxQuoteTradeUsdt := 100 }

/-- `side: Literal["BUY","SELL"]`. -/
inductive Side
  | BUY
  | SELL
deriving Repr, DecidableEq

/-- The wire string of a side. -/
def Side.str : Side → String
  | .BUY => "BUY"
  | .SELL => "SELL"

/-- `type: Literal["MARKET","LIMIT"]`. -/
inductive OrderType
  | MARKET
  | LIMIT
deriving Repr, DecidableEq

/-- The wire string of an order type. -/
def OrderType.str : OrderType → String
  | .MARKET => "MARKET"
  | .LIMIT => "LIMIT"

/-- The request body of `POST /order` (pydantic model `OrderIn`); optional
floats are `Option ℚ`, and `confirmed` defaults to `False`. -/
structure OrderIn where
  symbol : String
  side : Side
  type : OrderType
  quote_amount : Option ℚ := none
  quantity : Option ℚ := none
  price : Option ℚ := none
  confirmed : Bool := false

/-- Python truthiness of an `Optional[float]`: `None` and `0.0` are falsy. -/
def truthy : Option ℚ → Bool
  | none => false
  | some q => q != 0

/-! ## Order validator / risk gate (`create_order` up to the network call) -/

/-- Outcome of the validation stage of `create_order`: an `HTTPException`
raised before any network call, or the parameter dict handed to `_post`. -/
inductive OrderOutcome
  | reject (code : Nat) (reason : String)
  | forward (params : List (String × String))
deriving Repr, DecidableEq

/-- The symbol rejection detail:
`f"Pair non autorisée. Autorisées: {sorted(ALLOWED_SYMBOLS)}"`. -/
def symbolNotAllowedMsg (allowed : List String) : String :=
  "Pair non autorisée. Autorisées: " ++ pyListRepr (pySorted allowed)

/-- The notional-cap rejection detail:
`f"Montant > limite {MAX_QUOTE_TRADE_USDT} USDT."`. -/
def limitExceededMsg (maxQuote : ℚ) : String :=
  "Montant > limite " ++ pyFloatRepr maxQuote ++ " USDT."

/-- The validation stage of `create_order`: symbol allow-list check,
confirmation check, per-(type, side) required fields, the MARKET BUY notional
cap, and the construction of the forwarded parameter dict. -/
def create_order (cfg : Config) (o : OrderIn) : OrderOutcome :=
  let symbol := upper o.symbol
  if symbol ∉ cfg.allowedSymbols then
    .reject 400 (symbolNotAllowedMsg cfg.allowedSymbols)
  else if !o.confirmed then
    .reject 400 "Confirmation manquante."
  else
    let params := [("symbol", symbol), ("side", o.side.str), ("type", o.type.str)]
    match o.type with
    | .MARKET =>
        match o.side with
        | .BUY =>
            if !truthy o.quote_amount then
              .reject 400 "Pour BUY MARKET, fournir quote_amount."
            else if cfg.maxQuoteTradeUsdt < o.quote_amount.getD 0 then
              .reject 400 (limitExceededMsg cfg.maxQuoteTradeUsdt)
            else
              .forward (params ++ [("quoteOrderQty", formatFixed 2 (o.quote_amount.getD 0))])
        | .SELL =>
            if !truthy o.quantity then
              .reject 400 "Pour SELL MARKET, fournir quantity."
            else
              .forward (params ++ [("quantity", formatFixed 6 (o.quantity.getD 0))])
    | .LIMIT =>
        if !(truthy o.quantity && truthy o.price) then
          .reject 400 "Pour LIMIT, fournir quantity et price."
        else
          .forward (params ++
            [("quantity", formatFixed 6 (o.quantity.getD 0)),
             ("price", formatFixed 2 (o.price.getD 0)),
             ("timeInForce", "GTC")])

/-! ## Request signer and exchange client -/

/-- `_sign`: the canonical query string followed by a trailing `signature`
parameter, the lowercase hex HMAC-SHA256 of the query string under the
secret. -/
def _sign (secret : String) (params : List (String × String)) : String :=
  let query_string := urlencode params
  query_string ++ "&signature=" ++
    hexDigest (hmacSha256 (utf8Bytes secret) (utf8Bytes query_string))

/-- Network-level failures of the single `httpx` call: these raise `httpx`
exceptions, a class disjoint from `fastapi.HTTPException`. -/
inductive NetError
  | timeout
  | connectError
deriving Repr, DecidableEq

/-- An upstream HTTP response: status code and raw body text. -/
structure HttpResponse where
  status : Nat
  text : String
deriving Repr, DecidableEq

/-- The single outbound HTTP call, as a function from the encoded
query/body string to a network error or a response. -/
def Transport := String → Sum NetError HttpResponse

/-- What a client operation surfaces to its caller: a parsed JSON body, the
synthetic `{"ok": True}` acknowledgment, a raised `HTTPException` carrying
status and detail, or an uncaught network exception. -/
inductive CallResult
  | json (body : String)
  | ack
  | httpExc (status : Nat) (detail : String)
  | netExc (e : NetError)
deriving Repr, DecidableEq

/-- Result of `_get`: the surfaced value plus the state of the caller's
parameter mapping after the call (`params.update` mutates the caller's dict,
but `params = params or {}` replaces a falsy — absent or empty — argument
with a fresh dict, leaving the caller's object untouched). -/
structure GetResult where
  result : CallResult
  callerParams : Option (List (String × String))
  sent : List String
deriving Repr, DecidableEq

/-- The exchange client's GET operation. -/
def _get (secret : String) (params0 : Option (List (String × String)))
    (signed : Bool) (now : Nat) (T : Transport) : GetResult :=
  let ps := params0.getD []
  let ps' := if signed then dictUpdate ps "timestamp" (toString now) else ps
  let qs := if signed then _sign secret ps' else urlencode ps'
  let after := params0.map fun d =>
    if signed && !d.isEmpty then dictUpdate d "timestamp" (toString now) else d
  { result :=
      match T qs with
      | .inl e => .netExc e
      | .inr r => if 400 ≤ r.status then .httpExc r.status r.text else .json r.text,
    callerParams := after,
    sent := [qs] }

/-- Result of `_post`: the surfaced value, the state of the caller's
parameter mapping after the call, and the request bodies sent. -/
structure PostResult where
  result : CallResult
  callerParams : List (String × String)
  sent : List String
deriving Repr, DecidableEq

/-- The exchange client's POST operation.  With `signed=true` it updates the
caller's dict with a `timestamp` key, signs, and sends the signed body; a
2xx response with empty text yields the synthetic acknowledgment. -/
def _post (secret : String) (params : List (String × String))
    (signed : Bool) (now : Nat) (T : Transport) : PostResult :=
  let ps := if signed then dictUpdate params "timestamp" (toString now) else params
  let body := if signed then _sign secret ps else urlencode ps
  { result :=
      match T body with
      | .inl e => .netExc e
      | .inr r =>
          if 400 ≤ r.status then .httpExc r.status r.text
          else if r.text = "" then .ack
          else .json r.text,
    callerParams := ps,
    sent := [body] }

/-! ## The `POST /order` endpoint -/

/-- What `POST /order` surfaces, together with the list of request bodies
that went out over the network while handling it. -/
structure EndpointResult where
  result : CallResult
  sent : List String
deriving Repr, DecidableEq

/-- `POST /order`: run the validator; on rejection the `HTTPException`
surfaces with no network call, otherwise the parameters go to
`_post("/api/v3/order", params, signed=True)`. -/
def createOrderEndpoint (cfg : Config) (o : OrderIn) (now : Nat)
    (T : Transport) : EndpointResult :=
  match create_order cfg o with
  | .reject code msg => ⟨.httpExc code msg, []⟩
  | .forward params =>
      let pr := _post cfg.binanceSecret params true now T
      ⟨pr.result, pr.sent⟩

/-! ## Decimal-place counting -/

/-- `s` consists of a dot-free prefix, a dot, and exactly `d` dot-free
trailing characters: the number has exactly `d` decimal places. -/
def hasDecimals (s : String) (d : Nat) : Prop :=
  ∃ pre post : String, s = pre ++ "." ++ post ∧ post.length = d ∧
    Char.ofNat 46 ∉ post.data ∧ Char.ofNat 46 ∉ pre.data

/-! ## Supporting lemmas -/

theorem natPadDigits_length (d n : Nat) : (natPadDigits d n).length = d := by
  induction d generalizing n with
  | zero => rfl
  | succ d ih => simp [natPadDigits, ih]

theorem digitChar_ne_dot (n : Nat) (h : n < 10) : Nat.digitChar n ≠ Char.ofNat 46 := by
  interval_cases n <;> decide

theorem natPadDigits_no_dot (d n : Nat) : Char.ofNat 46 ∉ natPadDigits d n := by
  induction d generalizing n with
  | zero => simp [natPadDigits]
  | succ d ih =>
      simp only [natPadDigits, List.mem_append, List.mem_singleton]
      rintro (h | h)
      · exact ih _ h
      · exact digitChar_ne_dot _ (Nat.mod_lt _ (by omega)) h.symm

theorem natDecAux_no_dot (fuel n : Nat) : Char.ofNat 46 ∉ natDecAux fuel n := by
  induction fuel generalizing n with
  | zero => simp [natDecAux]
  | succ fuel ih =>
      simp only [natDecAux]
      split
      · intro h
        simp only [List.mem_singleton] at h
        exact digitChar_ne_dot n (by omega) h.symm
      · simp only [List.mem_append, List.mem_singleton]
        rintro (h | h)
        · exact ih _ h
        · exact digitChar_ne_dot _ (Nat.mod_lt _ (by omega)) h.symm

theorem natDecDigits_no_dot (n : Nat) : Char.ofNat 46 ∉ natDecDigits n :=
  natDecAux_no_dot _ _

/-- The endpoint surfaces a validator rejection as-is, with no network
traffic. -/
theorem endpoint_of_reject {cfg : Config} {o : OrderIn} {code : Nat} {msg : String}
    (now : Nat) (T : Transport) (h : create_order cfg o = .reject code msg) :
    createOrderEndpoint cfg o now T = ⟨.httpExc code msg, []⟩ := by
  simp [createOrderEndpoint, h]

/-- The endpoint hands a validated parameter set to `_post` and surfaces its
outcome and traffic. -/
theorem endpoint_of_forward {cfg : Config} {o : OrderIn} {params : List (String × String)}
    (now : Nat) (T : Transport) (h : create_order cfg o = .forward params) :
    createOrderEndpoint cfg o now T =
      ⟨(_post cfg.binanceSecret params true now T).result,
       (_post cfg.binanceSecret params true now T).sent⟩ := by
  simp [createOrderEndpoint, h]

/-- `_post` performs exactly one network send. -/
theorem post_sent_length (secret : String) (params : List (String × String))
    (signed : Bool) (now : Nat) (T : Transport) :
    (_post secret params signed now T).sent.length = 1 := rfl

/-- `formatFixed d q` always carries exactly `d` decimal places. -/
theorem formatFixed_hasDecimals (d : Nat) (q : ℚ) : hasDecimals (formatFixed d q) d := by
  refine ⟨(if q < 0 then "-" else "") ++
    String.mk (natDecDigits ((roundHalfEvenScaled d q).natAbs / 10 ^ d)),
    String.mk (natPadDigits d ((roundHalfEvenScaled d q).natAbs % 10 ^ d)), ?_, ?_, ?_, ?_⟩
  · apply String.ext
    simp [formatFixed, String.data_append]
  · simp [String.length_mk, natPadDigits_length]
  · exact natPadDigits_no_dot _ _
  · simp only [String.data_append, List.mem_append]
    rintro (h | h)
    · split at h <;> simp_all
    · exact natDecDigits_no_dot _ h

/-! ## Claims -/

/-- C3: `_sign` produces the canonical form-encoded query string followed by a
trailing `signature` parameter equal to the hex HMAC-SHA256, keyed by the
secret, of the UTF-8 bytes of that query string; the signature is a function
of the canonical query string alone, so recomputing from any parameter list
with the same encoding matches byte-for-byte. -/
theorem sign_canonical_and_deterministic (secret : String)
    (p1 p2 : List (String × String)) (h : urlencode p2 = urlencode p1) :
    _sign secret p1 = urlencode p1 ++ "&signature=" ++
      hexDigest (hmacSha256 (utf8Bytes secret) (utf8Bytes (urlencode p1))) ∧
    _sign secret p2 = _sign secret p1 := by
  refine ⟨rfl, ?_⟩
  unfold _sign
  rw [h]

/-- Witness for C3 at a concrete secret and parameter list. -/
theorem sign_canonical_and_deterministic_witness :
    _sign "s" [("symbol", "BTCUSDT")] = urlencode [("symbol", "BTCUSDT")] ++ "&signature=" ++
      hexDigest (hmacSha256 (utf8Bytes "s") (utf8Bytes (urlencode [("symbol", "BTCUSDT")]))) ∧
    _sign "s" [("symbol", "BTCUSDT")] = _sign "s" [("symbol", "BTCUSDT")] :=
  sign_canonical_and_deterministic "s" [("symbol", "BTCUSDT")] [("symbol", "BTCUSDT")] rfl

/-- C4: an unconfirmed order (`confirmed = false`, the field's default) is
always rejected with HTTP 400, whatever the other fields; and no parameter
set is ever forwarded unless `confirmed` is `true`. -/
theorem confirmation_guard (cfg : Config) (o : OrderIn) :
    (o.confirmed = false → ∃ reason, create_order cfg o = .reject 400 reason) ∧
    (∀ params, create_order cfg o = .forward params → o.confirmed = true) := by
  constructor
  · intro hc
    simp only [create_order, hc, Bool.not_false, if_true]
    split
    · exact ⟨_, rfl⟩
    · exact ⟨_, rfl⟩
  · intro params h
    by_contra hc
    rw [Bool.not_eq_true] at hc
    simp only [create_order, hc, Bool.not_false, if_true] at h
    split at h
    · exact OrderOutcome.noConfusion h
    · exact OrderOutcome.noConfusion h

/-- Witness for C4: a fully-valid order with `confirmed = false` is
rejected. -/
theorem confirmation_guard_witness :
    ∃ reason, create_order defaultConfig
      { symbol := "BTCUSDT", side := .BUY, type := .MARKET,
        quote_amount := some 50, confirmed := false } = .reject 400 reason :=
  (confirmation_guard defaultConfig
    { symbol := "BTCUSDT", side := .BUY, type := .MARKET,
      quote_amount := some 50, confirmed := false }).1 rfl

/-- C5: a timed-out or connection-failed exchange call surfaces as the
uncaught network exception, which is a different outcome from the
`HTTPException` used both for upstream 4xx/5xx rejections and for validation
failures — the two are never conflated. -/
theorem unreachable_distinct (secret : String) (params : List (String × String))
    (p0 : Option (List (String × String))) (signed : Bool) (now : Nat)
    (e : NetError) (status : Nat) (detail : String) :
    (_post secret params signed now (fun _ => .inl e)).result = .netExc e ∧
    (_get secret p0 signed now (fun _ => .inl e)).result = .netExc e ∧
    CallResult.netExc e ≠ .httpExc status detail := by
  refine ⟨rfl, rfl, by simp⟩

/-- C6: every upstream response with status ≥ 400 surfaces, from both client
operations, as an error carrying exactly that status code and the raw body
text verbatim. -/
theorem upstream_rejected_verbatim (secret : String) (params : List (String × String))
    (p0 : Option (List (String × String))) (signed : Bool) (now : Nat)
    (status : Nat) (text : String) (h : 400 ≤ status) :
    (_post secret params signed now (fun _ => .inr ⟨status, text⟩)).result =
      .httpExc status text ∧
    (_get secret p0 signed now (fun _ => .inr ⟨status, text⟩)).result =
      .httpExc status text := by
  constructor
  · simp only [_post]
    simp [h]
  · simp only [_get]
    simp [h]

/-- Witness for C6 at a concrete 418 response. -/
theorem upstream_rejected_verbatim_witness :
    (_post "s" [] true 0 (fun _ => .inr ⟨418, "teapot"⟩)).result = .httpExc 418 "teapot" ∧
    (_get "s" none true 0 (fun _ => .inr ⟨418, "teapot"⟩)).result = .httpExc 418 "teapot" :=
  upstream_rejected_verbatim "s" [] none true 0 418 "teapot" (by decide)

/-- C1 refutation: the claim demands rejection of a MARKET BUY whose
`quote_amount` is present but not positive, yet the validator accepts
`quote_amount = -1` (the truthiness check only rejects `None` and `0`) and
forwards `quoteOrderQty=-1.00`. -/
theorem market_buy_negative_accepted :
    create_order defaultConfig
      { symbol := "BTCUSDT", side := .BUY, type := .MARKET,
        quote_amount := some (-1), confirmed := true } =
    .forward [("symbol", "BTCUSDT"), ("side", "BUY"), ("type", "MARKET"),
              ("quoteOrderQty", "-1.00")] := by decide

/-- C1 (amended): for a MARKET BUY past the symbol and confirmation checks,
the validator rejects with 400 unless `quote_amount` is present and nonzero;
a nonzero `quote_amount` above the configured maximum is rejected with a
message carrying the limit, one at or below the maximum is accepted, and the
accepted value is forwarded as `quoteOrderQty` with exactly two decimal
places; any rejection surfaces with no network call. -/
theorem market_buy_validation (cfg : Config) (o : OrderIn)
    (ht : o.type = .MARKET) (hsd : o.side = .BUY)
    (hsym : upper o.symbol ∈ cfg.allowedSymbols) (hc : o.confirmed = true) :
    ((o.quote_amount = none ∨ o.quote_amount = some 0) →
      create_order cfg o = .reject 400 "Pour BUY MARKET, fournir quote_amount.") ∧
    (∀ q : ℚ, o.quote_amount = some q → q ≠ 0 → cfg.maxQuoteTradeUsdt < q →
      create_order cfg o = .reject 400 (limitExceededMsg cfg.maxQuoteTradeUsdt)) ∧
    (∀ q : ℚ, o.quote_amount = some q → q ≠ 0 → q ≤ cfg.maxQuoteTradeUsdt →
      create_order cfg o = .forward
        [("symbol", upper o.symbol), ("side", "BUY"), ("type", "MARKET"),
         ("quoteOrderQty", formatFixed 2 q)] ∧
      hasDecimals (formatFixed 2 q) 2) ∧
    (∀ code msg (now : Nat) (T : Transport), create_order cfg o = .reject code msg →
      createOrderEndpoint cfg o now T = ⟨.httpExc code msg, []⟩) := by
  refine ⟨?_, ?_, ?_, fun code msg now T h => endpoint_of_reject now T h⟩
  · rintro (h | h) <;> simp [create_order, hsym, hc, ht, hsd, h, truthy]
  · intro q hq hq0 hlt
    simp [create_order, hsym, hc, ht, hsd, hq, truthy, hq0, hlt]
  · intro q hq hq0 hle
    have hnlt : ¬ (cfg.maxQuoteTradeUsdt < q) := not_lt.mpr hle
    refine ⟨?_, formatFixed_hasDecimals 2 q⟩
    simp [create_order, hsym, hc, ht, hsd, hq, truthy, hq0, hnlt, Side.str, OrderType.str]

/-- Witness for C1: `quote_amount` equal to the maximum is accepted and
forwarded with two decimal places. -/
theorem market_buy_validation_witness :
    create_order defaultConfig
      { symbol := "BTCUSDT", side := .BUY, type := .MARKET,
        quote_amount := some 100, confirmed := true } =
      .forward [("symbol", upper "BTCUSDT"), ("side", "BUY"), ("type", "MARKET"),
                ("quoteOrderQty", formatFixed 2 100)] ∧
    hasDecimals (formatFixed 2 100) 2 :=
  (market_buy_validation defaultConfig
    { symbol := "BTCUSDT", side := .BUY, type := .MARKET,
      quote_amount := some 100, confirmed := true }
    rfl rfl (by decide) rfl).2.2.1 100 rfl (by decide) (by decide)

/-- C2: a symbol outside the allowed set yields HTTP 400 with a reason built
from the (sorted) allowed set, and zero outbound requests; more generally
every validator rejection surfaces as its `HTTPException` with an empty
network log, so validation failures never reach the network layer. -/
theorem validation_resolved_before_network (cfg : Config) (o : OrderIn)
    (now : Nat) (T : Transport) :
    (upper o.symbol ∉ cfg.allowedSymbols →
      createOrderEndpoint cfg o now T =
        ⟨.httpExc 400 (symbolNotAllowedMsg cfg.allowedSymbols), []⟩) ∧
    (∀ code msg, create_order cfg o = .reject code msg →
      createOrderEndpoint cfg o now T = ⟨.httpExc code msg, []⟩) := by
  constructor
  · intro h
    exact endpoint_of_reject now T (by simp [create_order, h])
  · intro code msg h
    exact endpoint_of_reject now T h

/-- Witness for C2 at a disallowed symbol: 400, reason listing the allowed
set, no request sent. -/
theorem validation_resolved_before_network_witness :
    createOrderEndpoint defaultConfig
      { symbol := "DOGEUSDT", side := .BUY, type := .MARKET,
        quote_amount := some 50, confirmed := true } 0
      (fun _ => .inr ⟨200, "{}"⟩) =
      ⟨.httpExc 400 (symbolNotAllowedMsg defaultConfig.allowedSymbols), []⟩ :=
  (validation_resolved_before_network defaultConfig
    { symbol := "DOGEUSDT", side := .BUY, type := .MARKET,
      quote_amount := some 50, confirmed := true } 0
    (fun _ => .inr ⟨200, "{}"⟩)).1 (by decide)

/-- C7: a validated LIMIT order requires both `quantity` and `price` (the
rejection message names both), forwards `quantity` with exactly six decimal
places and `price` with exactly two, and always attaches `timeInForce=GTC`;
a validated MARKET SELL requires `quantity` and forwards it with exactly six
decimal places. -/
theorem limit_and_market_sell_fields (cfg : Config) (o : OrderIn)
    (hsym : upper o.symbol ∈ cfg.allowedSymbols) (hc : o.confirmed = true) :
    (o.type = .LIMIT →
      ((truthy o.quantity && truthy o.price) = false →
        create_order cfg o = .reject 400 "Pour LIMIT, fournir quantity et price.") ∧
      (∀ q p : ℚ, o.quantity = some q → o.price = some p → q ≠ 0 → p ≠ 0 →
        create_order cfg o = .forward
          [("symbol", upper o.symbol), ("side", o.side.str), ("type", "LIMIT"),
           ("quantity", formatFixed 6 q), ("price", formatFixed 2 p),
           ("timeInForce", "GTC")] ∧
        hasDecimals (formatFixed 6 q) 6 ∧ hasDecimals (formatFixed 2 p) 2)) ∧
    (o.type = .MARKET → o.side = .SELL →
      (truthy o.quantity = false →
        create_order cfg o = .reject 400 "Pour SELL MARKET, fournir quantity.") ∧
      (∀ q : ℚ, o.quantity = some q → q ≠ 0 →
        create_order cfg o = .forward
          [("symbol", upper o.symbol), ("side", "SELL"), ("type", "MARKET"),
           ("quantity", formatFixed 6 q)] ∧
        hasDecimals (formatFixed 6 q) 6)) := by
  constructor
  · intro ht
    constructor
    · intro hmiss
      simp [create_order, hsym, hc, ht, hmiss]
    · intro q p hq hp hq0 hp0
      refine ⟨?_, formatFixed_hasDecimals 6 q, formatFixed_hasDecimals 2 p⟩
      simp [create_order, hsym, hc, ht, hq, hp, truthy, hq0, hp0, OrderType.str]
  · intro ht hsd
    constructor
    · intro hmiss
      simp [create_order, hsym, hc, ht, hsd, hmiss]
    · intro q hq hq0
      refine ⟨?_, formatFixed_hasDecimals 6 q⟩
      simp [create_order, hsym, hc, ht, hsd, hq, truthy, hq0, Side.str, OrderType.str]

/-- Witness for C7 at a concrete LIMIT order. -/
theorem limit_and_market_sell_fields_witness :
    create_order defaultConfig
      { symbol := "ETHUSDT", side := .BUY, type := .LIMIT,
        quantity := some 2, price := some 1500, confirmed := true } =
      .forward [("symbol", upper "ETHUSDT"), ("side", Side.BUY.str), ("type", "LIMIT"),
                ("quantity", formatFixed 6 2), ("price", formatFixed 2 1500),
                ("timeInForce", "GTC")] ∧
    hasDecimals (formatFixed 6 2) 6 ∧ hasDecimals (formatFixed 2 1500) 2 :=
  ((limit_and_market_sell_fields defaultConfig
    { symbol := "ETHUSDT", side := .BUY, type := .LIMIT,
      quantity := some 2, price := some 1500, confirmed := true }
    (by decide) rfl).1 rfl).2 2 1500 rfl rfl (by decide) (by decide)

/-- C8 refutation: with the allowed set configured as `["btcusdt"]`, even the
exact configured casing is rejected — the request symbol is upper-cased but
the configured set is not normalized, so no casing of this allowed symbol
passes the check. -/
theorem lowercase_allowed_symbol_rejected :
    create_order
      { binanceKey := "k", binanceSecret := "s",
        allowedSymbols := ["btcusdt"], maxQuoteTradeUsdt := 100 }
      { symbol := "btcusdt", side := .SELL, type := .MARKET,
        quantity := some 1, confirmed := true } =
    .reject 400 "Pair non autorisée. Autorisées: ['btcusdt']" := by decide

/-- C8 (amended): the incoming symbol is upper-cased before the allow-list
comparison and before forwarding, so the outcome depends only on the
upper-cased symbol; provided a configured allowed symbol is itself
upper-case (as the defaults are), every casing of it passes the check and
behaves exactly like the canonical symbol. -/
theorem symbol_case_insensitive (cfg : Config) (o : OrderIn) (s : String)
    (hmem : s ∈ cfg.allowedSymbols) (hupper : upper s = s)
    (hcase : upper o.symbol = s) :
    upper o.symbol ∈ cfg.allowedSymbols ∧
    create_order cfg o = create_order cfg { o with symbol := s } := by
  obtain ⟨sym, sd, ty, qa, qty, pri, conf⟩ := o
  refine ⟨hcase ▸ hmem, ?_⟩
  simp only [create_order]
  rw [hcase, hupper]

/-- Witness for C8: a mixed-casing request behaves exactly like the
canonical upper-case symbol. -/
theorem symbol_case_insensitive_witness :
    upper "btcUsdt" ∈ defaultConfig.allowedSymbols ∧
    create_order defaultConfig
      { symbol := "btcUsdt", side := .SELL, type := .MARKET,
        quantity := some 1, confirmed := true } =
    create_order defaultConfig
      { symbol := "BTCUSDT", side := .SELL, type := .MARKET,
        quantity := some 1, confirmed := true } :=
  symbol_case_insensitive defaultConfig
    { symbol := "btcUsdt", side := .SELL, type := .MARKET,
      quantity := some 1, confirmed := true }
    "BTCUSDT" (by decide) (by decide) (by decide)

/-- C9: the notional cap binds only MARKET BUY orders: a confirmed,
allow-listed LIMIT order with (nonzero) quantity and price, or MARKET SELL
order with (nonzero) quantity, is forwarded to the exchange — one request
sent — for every magnitude of quantity and price, with no cap check. -/
theorem cap_only_on_market_buy (cfg : Config) (o : OrderIn) (now : Nat)
    (T : Transport) (hsym : upper o.symbol ∈ cfg.allowedSymbols)
    (hc : o.confirmed = true) :
    (∀ q p : ℚ, o.type = .LIMIT → o.quantity = some q → o.price = some p →
      q ≠ 0 → p ≠ 0 →
      ∃ params, create_order cfg o = .forward params ∧
        (createOrderEndpoint cfg o now T).sent.length = 1) ∧
    (∀ q : ℚ, o.type = .MARKET → o.side = .SELL → o.quantity = some q → q ≠ 0 →
      ∃ params, create_order cfg o = .forward params ∧
        (createOrderEndpoint cfg o now T).sent.length = 1) := by
  constructor
  · intro q p ht hq hp hq0 hp0
    have hfwd : ∃ params, create_order cfg o = .forward params := by
      simp [create_order, hsym, hc, ht, hq, hp, truthy, hq0, hp0]
    obtain ⟨params, hfwd⟩ := hfwd
    refine ⟨params, hfwd, ?_⟩
    rw [endpoint_of_forward now T hfwd]
    exact post_sent_length cfg.binanceSecret params true now T
  · intro q ht hsd hq hq0
    have hfwd : ∃ params, create_order cfg o = .forward params := by
      simp [create_order, hsym, hc, ht, hsd, hq, truthy, hq0]
    obtain ⟨params, hfwd⟩ := hfwd
    refine ⟨params, hfwd, ?_⟩
    rw [endpoint_of_forward now T hfwd]
    exact post_sent_length cfg.binanceSecret params true now T

/-- Witness for C9: a LIMIT order whose notional value vastly exceeds the
configured maximum of 100 is still forwarded. -/
theorem cap_only_on_market_buy_witness :
    ∃ params, create_order defaultConfig
      { symbol := "BTCUSDT", side := .BUY, type := .LIMIT,
        quantity := some 1000000000, price := some 1000000000,
        confirmed := true } = .forward params ∧
    (createOrderEndpoint defaultConfig
      { symbol := "BTCUSDT", side := .BUY, type := .LIMIT,
        quantity := some 1000000000, price := some 1000000000,
        confirmed := true } 0 (fun _ => .inr ⟨200, "{}"⟩)).sent.length = 1 :=
  (cap_only_on_market_buy defaultConfig
    { symbol := "BTCUSDT", side := .BUY, type := .LIMIT,
      quantity := some 1000000000, price := some 1000000000, confirmed := true }
    0 (fun _ => .inr ⟨200, "{}"⟩) (by decide) rfl).1
    1000000000 1000000000 rfl rfl rfl (by decide) (by decide)

/-- C10 refutation: the claim says both operations mutate the caller-supplied
mapping on every signed call, but a signed `_get` with a supplied empty
mapping leaves it untouched — `params or {}` swaps the falsy empty dict for
a fresh one, which receives the timestamp instead. -/
theorem get_empty_mapping_not_mutated :
    (_get "s" (some []) true 1700000000000
      (fun _ => .inr ⟨200, "{}"⟩)).callerParams = some [] := by decide

/-- C10 (amended): with `signed=true`, `_post` always updates the caller's
mapping in place with a `timestamp` key before signing, and `_get` does so
exactly when the supplied mapping is non-empty (an absent or empty mapping is
replaced by a fresh dict, leaving the caller's object unchanged); whenever
the mapping had no `timestamp` key, the caller's mapping afterwards differs
from what was passed in. -/
theorem signed_calls_mutate_params (secret : String)
    (params : List (String × String)) (now : Nat) (T : Transport) :
    ((_post secret params true now T).callerParams =
      dictUpdate params "timestamp" (toString now)) ∧
    (params ≠ [] → (_get secret (some params) true now T).callerParams =
      some (dictUpdate params "timestamp" (toString now))) ∧
    ((_get secret (some []) true now T).callerParams = some []) ∧
    ((∀ kv ∈ params, kv.1 ≠ "timestamp") →
      dictUpdate params "timestamp" (toString now) ≠ params) := by
  refine ⟨?_, ?_, ?_, ?_⟩
  · rfl
  · intro h
    have hne : params.isEmpty = false := by
      cases params
      · exact absurd rfl h
      · rfl
    simp [_get, hne]
    exact fun h2 => absurd h2 h
  · rfl
  · intro h heq
    have hany : params.any (fun p => p.1 = "timestamp") = false := by
      rw [List.any_eq_false]
      intro x hx
      simpa using h x hx
    rw [dictUpdate, if_neg (by simp [hany])] at heq
    have := congrArg List.length heq
    simp at this

/-- Witness for C10 at a concrete one-entry mapping: the caller's dict gains
the timestamp and differs from the original. -/
theorem signed_calls_mutate_params_witness :
    (_get "s" (some [("a", "1")]) true 5
      (fun _ => .inr ⟨200, "{}"⟩)).callerParams =
      some (dictUpdate [("a", "1")] "timestamp" (toString 5)) ∧
    dictUpdate [("a", "1")] "timestamp" (toString 5) ≠ [("a", "1")] :=
  ⟨(signed_calls_mutate_params "s" [("a", "1")] 5
      (fun _ => .inr ⟨200, "{}"⟩)).2.1 (by decide),
   (signed_calls_mutate_params "s" [("a", "1")] 5
      (fun _ => .inr ⟨200, "{}"⟩)).2.2.2 (by decide)⟩

end BinanceProxy
